import Mathlib

/-!
Verification of the GlickoTR rating computation (`src/glicko.ts`).

The source is TypeScript operating on JS `number`s.  The shallow embedding
models numbers as exact real numbers `ℝ` (so `Math.exp`, `Math.sqrt`,
`Math.log`, `Math.PI` become `Real.exp`, `Real.sqrt`, `Real.log`, `Real.pi`).
In this idealisation every value is finite, so the source's `isFinite`
guards are dead branches and are omitted; the two bounded `while` loops of
`determineSigma` are modelled by structurally recursive functions on a fuel
argument equal to the source's iteration caps.
-/

noncomputable section

namespace GlickoTR

/-! ## Constants (src/glicko.ts lines 8-25) -/

def DEFAULT_MU : ℝ := 1500.0

def DEFAULT_PHI : ℝ := 250.0

def DEFAULT_SIGMA : ℝ := 0.06

/-- System constant controlling volatility change speed. -/
def TAU : ℝ := 0.5

/-- Convergence tolerance for the sigma calculation. -/
def EPSILON : ℝ := 0.000001

/-- Scaling factor for Glicko-2 conversion. -/
def SCALING_FACTOR : ℝ := 173.7178

/-- Epsilon for clamping the expected score away from exact 0 or 1. -/
def CLAMP_EPSILON : ℝ := 1e-1

/-! ## Data model -/

/-- A player's rating parameters on the original (public) scale. -/
structure PlayerRating where
  mu : ℝ
  phi : ℝ
  sigma : ℝ
  deriving DecidableEq

/-- A player's rating parameters on the internal Glicko-2 scale. -/
structure Glicko2Rating where
  mu : ℝ
  phi : ℝ
  sigma : ℝ
  deriving DecidableEq

/-! ## Scale conversions (lines 48-69) -/

/-- Source `scaleDown`: original scale to internal Glicko-2 scale. -/
def scaleDown (rating : PlayerRating) : Glicko2Rating :=
  { mu := (rating.mu - DEFAULT_MU) / SCALING_FACTOR
    phi := rating.phi / SCALING_FACTOR
    sigma := rating.sigma }

/-- Source `scaleUp`: internal Glicko-2 scale back to the original scale, with the
final rating clamped to `[0, 5000]` (the source's `min_rating`/`max_rating`). -/
def scaleUp (rating_g2 : Glicko2Rating) : PlayerRating :=
  { mu := max 0 (min (rating_g2.mu * SCALING_FACTOR + DEFAULT_MU) 5000)
    phi := rating_g2.phi * SCALING_FACTOR
    sigma := rating_g2.sigma }

/-! ## Expected-outcome model (lines 74-88) -/

/-- The Glicko-2 `g(phi)` function (source `reduceImpact`). -/
def reduceImpact (rating_g2 : Glicko2Rating) : ℝ :=
  1.0 / Real.sqrt (1.0 + 3.0 * rating_g2.phi ^ 2 / Real.pi ^ 2)

/-- The Glicko-2 `E` function (source `expectScore`), clamped to
`[CLAMP_EPSILON, 1 - CLAMP_EPSILON]`. -/
def expectScore (rating_g2 other_rating_g2 : Glicko2Rating) (impact : ℝ) : ℝ :=
  let exponent := -impact * (rating_g2.mu - other_rating_g2.mu)
  let score := 1.0 / (1.0 + Real.exp exponent)
  max CLAMP_EPSILON (min score (1.0 - CLAMP_EPSILON))

/-! ## Weighting policy (lines 93-113) -/

/-- Source `calculateMatchWeight`: weight of a match from its status string
and the two game totals.  Unknown statuses fall through to weight `0`. -/
def calculateMatchWeight (status : String) (playerGames opponentGames : ℝ) : ℝ :=
  if status = "walkover" then 0.0
  else if status = "completed" then 1.0
  else if status = "retired" then
    let total_games := playerGames + opponentGames
    if total_games ≤ 0 then 0.0
    else min 1.0 (total_games / 18.0) * 0.8
  else 0.0

/-! ## Volatility solver (lines 119-226) -/

/-- The function `f` whose root the volatility solver seeks (the closure `f`
inside source `determineSigma`), including the `tmp < 1e-15` guard branch. -/
def sigmaF (phi variance diffSq alpha : ℝ) (x : ℝ) : ℝ :=
  let expX := Real.exp x
  let tmp := phi ^ 2 + variance + expX
  if tmp < 1e-15 then (x - alpha) / TAU ^ 2 - 1
  else expX * (diffSq - phi ^ 2 - variance - expX) / (2 * tmp ^ 2) - (x - alpha) / TAU ^ 2

/-- The bracketing `k`-loop of source `determineSigma` (lines 149-155):
increase `k` while `k < 100`, the trial point stays above `-700`, and `f`
is still nonnegative there.  Fuel bounds the recursion; the source loop
performs at most 99 iterations, so fuel `100` is never exhausted. -/
def bracketK (f : ℝ → ℝ) (alpha : ℝ) : ℕ → ℕ → ℕ
  | k, 0 => k
  | k, fuel + 1 =>
    if k < 100 ∧ -700 ≤ alpha - (k : ℝ) * TAU ∧ 0 ≤ f (alpha - (k : ℝ) * TAU) then
      bracketK f alpha (k + 1) fuel
    else k

/-- The Illinois-method refinement loop of source `determineSigma`
(lines 162-225), with fuel standing for the remaining iteration budget
(`max_iter - iter`); returns `exp(b/2)` on every exit from the loop.
The source's `isFinite` recovery branches are dead over `ℝ` and omitted. -/
def sigmaLoop (f : ℝ → ℝ) (sigma variance : ℝ) : ℕ → ℝ → ℝ → ℝ → ℝ → ℝ
  | 0, _, b, _, _ => Real.exp (b / 2)
  | fuel + 1, a, b, fa, fb =>
    if EPSILON < |b - a| then
      if 0 ≤ fa * fb then
        -- bracket invalid: fall back to the current sigma (damped if the
        -- variance is huge)
        if variance < 1e6 then sigma else sigma * 0.9
      else
        let c := a + (a - b) * fa / (fb - fa)
        let fc := f c
        if fc * fb < 0 then
          if |fc - fb| < EPSILON then Real.exp (c / 2)
          else sigmaLoop f sigma variance fuel b c fb fc
        else
          let fa2 := if |fb + fc| < 1e-15 then fa * 0.5 else fa * (fb / (fb + fc))
          if |fc - fa2| < EPSILON then Real.exp (c / 2)
          else sigmaLoop f sigma variance fuel a c fa2 fc
    else Real.exp (b / 2)

/-- Source `determineSigma`: iterative procedure for the new volatility. -/
def determineSigma (rating_g2 : Glicko2Rating) (difference variance : ℝ) : ℝ :=
  let phi := rating_g2.phi
  let sigma := rating_g2.sigma
  let diffSq := difference ^ 2
  let alpha := Real.log (sigma ^ 2)
  let f := sigmaF phi variance diffSq alpha
  let a := alpha
  let b :=
    if phi ^ 2 + variance < diffSq then Real.log (diffSq - phi ^ 2 - variance)
    else alpha - (bracketK f alpha 1 100 : ℝ) * TAU
  sigmaLoop f sigma variance 100 a b (f a) (f b)

/-! ## Update orchestrator (lines 233-327)

In the source, `calculateGlickoTRUpdate` inlines the per-competitor steps
3-8 twice, once per perspective, with the two blocks identical up to the
role swap (self/other rating and own actual score).  `updateSide` is that
common block verbatim; the orchestrator applies it to each perspective with
the same match weight and complementary actual scores, exactly as the
source does. -/

/-- Steps 3-8 of source `calculateGlickoTRUpdate` for one perspective:
impact, expected score, clamped variance, difference and variance-inverse
terms, new sigma, `phi*`, new `phi` and `mu`, and scale-up. -/
def updateSide (self other : PlayerRating) (actual weight : ℝ) : PlayerRating :=
  let self_g2 := scaleDown self
  let other_g2 := scaleDown other
  let impact := reduceImpact other_g2
  let expected := expectScore self_g2 other_g2 impact
  let variance := 1.0 / (impact ^ 2 * expected * (1.0 - expected))
  let clampedVariance := min variance 1e6
  let diffTerm := weight * impact * (actual - expected)
  let varianceInvTerm := weight * impact ^ 2 * expected * (1.0 - expected)
  let newSigma := determineSigma self_g2 diffTerm clampedVariance
  let phiStar := Real.sqrt (self_g2.phi ^ 2 + newSigma ^ 2)
  let newPhi := 1.0 / Real.sqrt (1.0 / phiStar ^ 2 + varianceInvTerm)
  let newMu := self_g2.mu + newPhi ^ 2 * diffTerm
  scaleUp { mu := newMu, phi := newPhi, sigma := newSigma }

/-- Source `calculateGlickoTRUpdate`: weight the match, short-circuit on
nonpositive weight, otherwise update both perspectives (the opponent's
actual score is `1 - actualScorePlayer`, source line 296). -/
def calculateGlickoTRUpdate (playerRating opponentRating : PlayerRating)
    (playerGames opponentGames : ℝ) (status : String) :
    PlayerRating × PlayerRating :=
  let matchWeight := calculateMatchWeight status playerGames opponentGames
  if matchWeight ≤ 0 then (playerRating, opponentRating)
  else
    let totalGames := playerGames + opponentGames
    let actualScorePlayer := if totalGames ≤ 0 then 0.5 else playerGames / totalGames
    (updateSide playerRating opponentRating actualScorePlayer matchWeight,
     updateSide opponentRating playerRating (1.0 - actualScorePlayer) matchWeight)

/-- Source `createDefaultRating`. -/
def createDefaultRating : PlayerRating :=
  { mu := DEFAULT_MU, phi := DEFAULT_PHI, sigma := DEFAULT_SIGMA }

/-! ## Theorems -/

/-- C3: for every pair of input ratings and scores, a `walkover` contest has
weight 0 and the update returns both ratings exactly unchanged. -/
theorem walkover_weight_zero_update_identity (A B : PlayerRating) (g1 g2 : ℝ) :
    calculateMatchWeight "walkover" g1 g2 = 0 ∧
    calculateGlickoTRUpdate A B g1 g2 "walkover" = (A, B) := by
  have hw : calculateMatchWeight "walkover" g1 g2 = 0 := by
    unfold calculateMatchWeight
    rw [if_pos rfl]
    norm_num
  refine ⟨hw, ?_⟩
  unfold calculateGlickoTRUpdate
  rw [hw, if_pos le_rfl]

/-- C10: for every status string other than `completed`, `retired` and
`walkover`, the match weight is 0 and the update returns both input ratings
unchanged. -/
theorem unknown_status_weight_zero_update_identity (status : String)
    (A B : PlayerRating) (g1 g2 : ℝ) (h1 : status ≠ "walkover")
    (h2 : status ≠ "completed") (h3 : status ≠ "retired") :
    calculateMatchWeight status g1 g2 = 0 ∧
    calculateGlickoTRUpdate A B g1 g2 status = (A, B) := by
  have hw : calculateMatchWeight status g1 g2 = 0 := by
    unfold calculateMatchWeight
    rw [if_neg h1, if_neg h2, if_neg h3]
    norm_num
  refine ⟨hw, ?_⟩
  unfold calculateGlickoTRUpdate
  rw [hw, if_pos le_rfl]

/-- Witness for C10 at the concrete status `tiebreak` and scores 3, 2. -/
theorem unknown_status_weight_zero_update_identity_witness :
    ("tiebreak" : String) ≠ "walkover" ∧ ("tiebreak" : String) ≠ "completed" ∧
    ("tiebreak" : String) ≠ "retired" ∧
    calculateMatchWeight "tiebreak" 3 2 = 0 ∧
    calculateGlickoTRUpdate createDefaultRating createDefaultRating 3 2 "tiebreak" =
      (createDefaultRating, createDefaultRating) := by
  have h := unknown_status_weight_zero_update_identity "tiebreak"
    createDefaultRating createDefaultRating 3 2 (by decide) (by decide) (by decide)
  exact ⟨by decide, by decide, by decide, h.1, h.2⟩

/-- C2 counterexample: a contest labelled `tiebreak` with scores present gets
weight 0 from the code, not the claimed 0.6 (nor 0.72 for a public one). -/
theorem tiebreak_weight_is_zero_not_point_six :
    calculateMatchWeight "tiebreak" 6 4 ≠ 0.6 ∧
    calculateMatchWeight "tiebreak" 6 4 ≠ 0.72 ∧
    calculateMatchWeight "tiebreak" 6 4 = 0 := by
  have hw : calculateMatchWeight "tiebreak" 6 4 = 0 := by
    unfold calculateMatchWeight
    rw [if_neg (by decide), if_neg (by decide), if_neg (by decide)]
    norm_num
  refine ⟨?_, ?_, hw⟩ <;> rw [hw] <;> norm_num

/-- C2 amended: the weighting function has no category or `isPublic` input;
a contest whose status string is `tiebreak` falls into the unknown-status
branch, gets weight 0 for any scores, and the update leaves both ratings
unchanged.  No 1.2 multiplier exists anywhere in the code. -/
theorem tiebreak_status_weight_zero (A B : PlayerRating) (g1 g2 : ℝ) :
    calculateMatchWeight "tiebreak" g1 g2 = 0 ∧
    calculateGlickoTRUpdate A B g1 g2 "tiebreak" = (A, B) := by
  have hw : calculateMatchWeight "tiebreak" g1 g2 = 0 := by
    unfold calculateMatchWeight
    rw [if_neg (by decide), if_neg (by decide), if_neg (by decide)]
    norm_num
  refine ⟨hw, ?_⟩
  unfold calculateGlickoTRUpdate
  rw [hw, if_pos le_rfl]

/-- C4: a `retired` contest is weighted `min 1 (total/18) * 0.8` for positive
total score, 0 for nonpositive total; in particular 0.4 at total 9 and 0.8
from total 18 on. -/
theorem retired_weight_formula (g1 g2 : ℝ) :
    (g1 + g2 ≤ 0 → calculateMatchWeight "retired" g1 g2 = 0) ∧
    (0 < g1 + g2 →
      calculateMatchWeight "retired" g1 g2 = min 1 ((g1 + g2) / 18) * 0.8) ∧
    (g1 + g2 = 9 → calculateMatchWeight "retired" g1 g2 = 0.4) ∧
    (18 ≤ g1 + g2 → calculateMatchWeight "retired" g1 g2 = 0.8) := by
  have he : calculateMatchWeight "retired" g1 g2 =
      if g1 + g2 ≤ 0 then 0 else min 1 ((g1 + g2) / 18) * 0.8 := by
    unfold calculateMatchWeight
    rw [if_neg (by decide), if_neg (by decide), if_pos rfl]
    norm_num
  refine ⟨?_, ?_, ?_, ?_⟩
  · intro h
    rw [he, if_pos h]
  · intro h
    rw [he, if_neg (not_le.mpr h)]
  · intro h
    rw [he, h, if_neg (by norm_num)]
    rw [show ((9:ℝ) / 18) = 0.5 by norm_num, min_eq_right (by norm_num : (0.5:ℝ) ≤ 1)]
    norm_num
  · intro h
    have hpos : ¬ g1 + g2 ≤ 0 := by linarith
    rw [he, if_neg hpos,
      min_eq_left ((le_div_iff₀ (by norm_num : (0:ℝ) < 18)).mpr (by linarith))]
    norm_num

/-- Witness for C4 at total scores 9, 18 and 0. -/
theorem retired_weight_formula_witness :
    calculateMatchWeight "retired" 9 0 = 0.4 ∧
    calculateMatchWeight "retired" 18 0 = 0.8 ∧
    calculateMatchWeight "retired" 0 0 = 0 :=
  ⟨(retired_weight_formula 9 0).2.2.1 (by norm_num),
   (retired_weight_formula 18 0).2.2.2 (by norm_num),
   (retired_weight_formula 0 0).1 (by norm_num)⟩

/-- C8: the scale conversions are mutually inverse on ratings whose public
rating lies in `[0, 5000]`: deviation and volatility always round-trip and
the clamp leaves the rating unchanged. -/
theorem scale_roundtrip (r : PlayerRating) (h0 : 0 ≤ r.mu) (h5 : r.mu ≤ 5000) :
    scaleUp (scaleDown r) = r := by
  have hS : SCALING_FACTOR ≠ 0 := by unfold SCALING_FACTOR; norm_num
  simp only [scaleUp, scaleDown]
  have hmu : (r.mu - DEFAULT_MU) / SCALING_FACTOR * SCALING_FACTOR + DEFAULT_MU = r.mu := by
    field_simp
  have hphi : r.phi / SCALING_FACTOR * SCALING_FACTOR = r.phi := div_mul_cancel₀ _ hS
  rw [hmu, hphi, min_eq_left h5, max_eq_right h0]

/-- Witness for C8 at the default rating. -/
theorem scale_roundtrip_witness :
    (0:ℝ) ≤ PlayerRating.mu { mu := 1500, phi := 250, sigma := 0.06 } ∧
    PlayerRating.mu { mu := 1500, phi := 250, sigma := 0.06 } ≤ 5000 ∧
    scaleUp (scaleDown { mu := 1500, phi := 250, sigma := 0.06 }) =
      { mu := 1500, phi := 250, sigma := 0.06 } :=
  ⟨by norm_num, by norm_num, scale_roundtrip _ (by norm_num) (by norm_num)⟩

/-- C9: the expected score is the logistic value clamped into `[0.1, 0.9]`,
and in particular is never 0 or 1. -/
theorem expectScore_clamped_logistic (r o : Glicko2Rating) (impact : ℝ) :
    expectScore r o impact =
      max 0.1 (min (1 / (1 + Real.exp (-impact * (r.mu - o.mu)))) 0.9) ∧
    0.1 ≤ expectScore r o impact ∧ expectScore r o impact ≤ 0.9 ∧
    expectScore r o impact ≠ 0 ∧ expectScore r o impact ≠ 1 := by
  have he : expectScore r o impact =
      max 0.1 (min (1 / (1 + Real.exp (-impact * (r.mu - o.mu)))) 0.9) := by
    simp only [expectScore, CLAMP_EPSILON]
    norm_num
  have h1 : 0.1 ≤ expectScore r o impact := by
    rw [he]; exact le_max_left _ _
  have h2 : expectScore r o impact ≤ 0.9 := by
    rw [he]; exact max_le (by norm_num) (min_le_right _ _)
  refine ⟨he, h1, h2, ?_, ?_⟩
  · intro hc
    rw [hc] at h1
    norm_num at h1
  · intro hc
    rw [hc] at h2
    norm_num at h2

/-- C5: if at the start of a refinement iteration of the volatility solver
the bracket is invalid (`f(A)*f(B) ≥ 0` while the loop would continue), the
solver returns the original volatility when the variance is below `1e6`,
and the damped `volatility * 0.9` otherwise. -/
theorem sigma_bracket_failure_fallback (phi sigma variance diffSq alpha : ℝ)
    (fuel : ℕ) (a b fa fb : ℝ) (hcont : EPSILON < |b - a|) (hsign : 0 ≤ fa * fb) :
    sigmaLoop (sigmaF phi variance diffSq alpha) sigma variance (fuel + 1) a b fa fb =
      if variance < 1e6 then sigma else sigma * 0.9 := by
  rw [sigmaLoop, if_pos hcont, if_pos hsign]

/-- Witness for C5 at a concrete invalid-bracket state. -/
theorem sigma_bracket_failure_fallback_witness :
    EPSILON < |(1:ℝ) - 0| ∧ (0:ℝ) ≤ 1 * 1 ∧
    sigmaLoop (sigmaF 1 7 0 0) 0.06 7 1 0 1 1 1 = 0.06 := by
  have hc : EPSILON < |(1:ℝ) - 0| := by unfold EPSILON; norm_num
  refine ⟨hc, by norm_num, ?_⟩
  rw [sigma_bracket_failure_fallback 1 0.06 7 0 0 0 0 1 1 1 hc (by norm_num),
    if_pos (by norm_num : (7:ℝ) < 1e6)]

/-- The match weight only uses the two game counts through their sum, so it
is symmetric in them. -/
lemma calculateMatchWeight_comm (status : String) (g1 g2 : ℝ) :
    calculateMatchWeight status g2 g1 = calculateMatchWeight status g1 g2 := by
  unfold calculateMatchWeight
  rw [add_comm g2 g1]

/-- C6: swapping the two competitors together with their scores swaps the two
outputs of the update exactly. -/
theorem update_swap_symmetric (A B : PlayerRating) (g1 g2 : ℝ) (status : String) :
    calculateGlickoTRUpdate B A g2 g1 status =
      ((calculateGlickoTRUpdate A B g1 g2 status).2,
       (calculateGlickoTRUpdate A B g1 g2 status).1) := by
  simp only [calculateGlickoTRUpdate]
  rw [calculateMatchWeight_comm]
  by_cases h : calculateMatchWeight status g1 g2 ≤ 0
  · simp only [if_pos h]
  · simp only [if_neg h]
    have hact : (if g2 + g1 ≤ 0 then (0.5:ℝ) else g2 / (g2 + g1)) =
        1.0 - (if g1 + g2 ≤ 0 then (0.5:ℝ) else g1 / (g1 + g2)) := by
      rw [add_comm g2 g1]
      by_cases ht : g1 + g2 ≤ 0
      · rw [if_pos ht, if_pos ht]
        norm_num
      · rw [if_neg ht, if_neg ht]
        have hne : g1 + g2 ≠ 0 := fun hc => ht (le_of_eq hc)
        field_simp
        ring
    rw [hact, sub_sub_cancel]

/-- The regula-falsi trial point stays below any common upper bound of the
bracket endpoints whenever the bracket has a sign change. -/
lemma illinois_c_le (a b fa fb hi : ℝ) (hab : fa * fb < 0) (ha : a ≤ hi)
    (hb : b ≤ hi) : a + (a - b) * fa / (fb - fa) ≤ hi := by
  have key : (a - b) * fa / (fb - fa) ≤ hi - a := by
    rcases mul_neg_iff.mp hab with ⟨hfa, hfb⟩ | ⟨hfa, hfb⟩
    · have hden : fb - fa < 0 := by linarith
      rw [div_le_iff_of_neg hden]
      nlinarith [mul_nonneg hfa.le (sub_nonneg.mpr hb),
        mul_nonpos_of_nonpos_of_nonneg hfb.le (sub_nonneg.mpr ha)]
    · have hden : 0 < fb - fa := by linarith
      rw [div_le_iff₀ hden]
      nlinarith [mul_nonpos_of_nonpos_of_nonneg hfa.le (sub_nonneg.mpr hb),
        mul_nonneg hfb.le (sub_nonneg.mpr ha)]
  linarith

/-- Every exit of the refinement loop is either a sigma fallback or
`exp(x/2)` for some `x` below any common upper bound of the evolving
bracket, so the loop's value is bounded accordingly. -/
lemma sigmaLoop_le (f : ℝ → ℝ) (sigma variance hi : ℝ) :
    ∀ (fuel : ℕ) (a b fa fb : ℝ), a ≤ hi → b ≤ hi →
      sigmaLoop f sigma variance fuel a b fa fb ≤
        max sigma (max (sigma * 0.9) (Real.exp (hi / 2))) := by
  have hexp : ∀ x : ℝ, x ≤ hi →
      Real.exp (x / 2) ≤ max sigma (max (sigma * 0.9) (Real.exp (hi / 2))) :=
    fun x hx => le_max_of_le_right (le_max_of_le_right
      (Real.exp_le_exp.mpr (by linarith)))
  intro fuel
  induction fuel with
  | zero =>
    intro a b fa fb _ hb
    simp only [sigmaLoop]
    exact hexp b hb
  | succ n ih =>
    intro a b fa fb ha hb
    simp only [sigmaLoop]
    by_cases h1 : EPSILON < |b - a|
    · rw [if_pos h1]
      by_cases h2 : 0 ≤ fa * fb
      · rw [if_pos h2]
        by_cases h3 : variance < 1e6
        · rw [if_pos h3]
          exact le_max_left _ _
        · rw [if_neg h3]
          exact le_max_of_le_right (le_max_left _ _)
      · rw [if_neg h2]
        have hcle : a + (a - b) * fa / (fb - fa) ≤ hi :=
          illinois_c_le a b fa fb hi (not_le.mp h2) ha hb
        set c := a + (a - b) * fa / (fb - fa) with hcdef
        by_cases h3 : f c * fb < 0
        · rw [if_pos h3]
          by_cases h4 : |f c - fb| < EPSILON
          · rw [if_pos h4]
            exact hexp c hcle
          · rw [if_neg h4]
            exact ih b c fb (f c) hb hcle
        · rw [if_neg h3]
          by_cases h4 : |f c - (if |fb + f c| < 1e-15 then fa * 0.5
              else fa * (fb / (fb + f c)))| < EPSILON
          · rw [if_pos h4]
            exact hexp c hcle
          · rw [if_neg h4]
            exact ih a c _ (f c) ha hcle
    · rw [if_neg h1]
      exact hexp b hb

/-- Every exit of the refinement loop is positive when sigma is. -/
lemma sigmaLoop_pos (f : ℝ → ℝ) (sigma variance : ℝ) (hs : 0 < sigma) :
    ∀ (fuel : ℕ) (a b fa fb : ℝ),
      0 < sigmaLoop f sigma variance fuel a b fa fb := by
  intro fuel
  induction fuel with
  | zero =>
    intro a b fa fb
    simp only [sigmaLoop]
    exact Real.exp_pos _
  | succ n ih =>
    intro a b fa fb
    simp only [sigmaLoop]
    by_cases h1 : EPSILON < |b - a|
    · rw [if_pos h1]
      by_cases h2 : 0 ≤ fa * fb
      · rw [if_pos h2]
        by_cases h3 : variance < 1e6
        · rw [if_pos h3]
          exact hs
        · rw [if_neg h3]
          exact mul_pos hs (by norm_num)
      · rw [if_neg h2]
        set c := a + (a - b) * fa / (fb - fa) with hcdef
        by_cases h3 : f c * fb < 0
        · rw [if_pos h3]
          by_cases h4 : |f c - fb| < EPSILON
          · rw [if_pos h4]
            exact Real.exp_pos _
          · rw [if_neg h4]
            exact ih b c fb (f c)
        · rw [if_neg h3]
          by_cases h4 : |f c - (if |fb + f c| < 1e-15 then fa * 0.5
              else fa * (fb / (fb + f c)))| < EPSILON
          · rw [if_pos h4]
            exact Real.exp_pos _
          · rw [if_neg h4]
            exact ih a c _ (f c)
    · rw [if_neg h1]
      exact Real.exp_pos _

/-- When the initial bracket does not take the `log` branch, both starting
endpoints are at most `alpha = log(sigma^2)`, so the solver's result is
bounded by the current sigma. -/
lemma determineSigma_le (r : Glicko2Rating) (d v : ℝ) (hs : 0 < r.sigma)
    (hbr : d ^ 2 ≤ r.phi ^ 2 + v) : determineSigma r d v ≤ r.sigma := by
  simp only [determineSigma]
  rw [if_neg (not_lt.mpr hbr)]
  set alpha := Real.log (r.sigma ^ 2) with halpha
  have hk : (0:ℝ) ≤ (bracketK (sigmaF r.phi v (d ^ 2) alpha) alpha 1 100 : ℝ) * TAU :=
    mul_nonneg (Nat.cast_nonneg _) (by unfold TAU; norm_num)
  have h := sigmaLoop_le (sigmaF r.phi v (d ^ 2) alpha) r.sigma v alpha 100
    alpha (alpha - (bracketK (sigmaF r.phi v (d ^ 2) alpha) alpha 1 100 : ℝ) * TAU)
    (sigmaF r.phi v (d ^ 2) alpha alpha)
    (sigmaF r.phi v (d ^ 2) alpha
      (alpha - (bracketK (sigmaF r.phi v (d ^ 2) alpha) alpha 1 100 : ℝ) * TAU))
    le_rfl (by linarith)
  have hexp : Real.exp (alpha / 2) = r.sigma := by
    rw [halpha, Real.log_pow]
    push_cast
    rw [show (2:ℝ) * Real.log r.sigma / 2 = Real.log r.sigma by ring]
    exact Real.exp_log hs
  rw [hexp] at h
  have hmax : max r.sigma (max (r.sigma * 0.9) r.sigma) = r.sigma := by
    rw [max_eq_right (by linarith : r.sigma * 0.9 ≤ r.sigma), max_self]
  rw [hmax] at h
  exact h

/-- The solver's result is positive whenever the current sigma is. -/
lemma determineSigma_pos (r : Glicko2Rating) (d v : ℝ) (hs : 0 < r.sigma) :
    0 < determineSigma r d v := by
  simp only [determineSigma]
  exact sigmaLoop_pos _ _ _ hs 100 _ _ _ _

lemma reduceImpact_pos (r : Glicko2Rating) : 0 < reduceImpact r := by
  unfold reduceImpact
  positivity

lemma reduceImpact_le_one (r : Glicko2Rating) : reduceImpact r ≤ 1 := by
  unfold reduceImpact
  have harg : (1:ℝ) ≤ 1.0 + 3.0 * r.phi ^ 2 / Real.pi ^ 2 := by
    have h : (0:ℝ) ≤ 3.0 * r.phi ^ 2 / Real.pi ^ 2 := by positivity
    linarith
  have hs1 : 1 ≤ Real.sqrt (1.0 + 3.0 * r.phi ^ 2 / Real.pi ^ 2) := by
    have h2 := Real.sqrt_le_sqrt harg
    rwa [Real.sqrt_one] at h2
  rw [div_le_one (by linarith)]
  linarith

lemma expectScore_equal_mu (r o : Glicko2Rating) (i : ℝ) (h : r.mu = o.mu) :
    expectScore r o i = 0.5 := by
  simp only [expectScore, h, sub_self, mul_zero, Real.exp_zero, CLAMP_EPSILON]
  norm_num

lemma default_impact_sq_ge :
    0.6 ≤ reduceImpact { mu := 0, phi := 250 / 173.7178, sigma := 0.06 } ^ 2 := by
  simp only [reduceImpact]
  have hpi : (9.8696:ℝ) ≤ Real.pi ^ 2 := by nlinarith [Real.pi_gt_d6]
  have harg0 : (0:ℝ) < 1.0 + 3.0 * ((250:ℝ) / 173.7178) ^ 2 / Real.pi ^ 2 := by positivity
  have hsq : Real.sqrt (1.0 + 3.0 * ((250:ℝ) / 173.7178) ^ 2 / Real.pi ^ 2) ^ 2
      = 1.0 + 3.0 * ((250:ℝ) / 173.7178) ^ 2 / Real.pi ^ 2 := Real.sq_sqrt harg0.le
  rw [div_pow, hsq]
  have hub : 3.0 * ((250:ℝ) / 173.7178) ^ 2 / Real.pi ^ 2 ≤ 2 / 3 := by
    have h3 : (3.0:ℝ) * ((250:ℝ) / 173.7178) ^ 2 ≤ 6.216 := by norm_num
    have hd : (3.0:ℝ) * ((250:ℝ) / 173.7178) ^ 2 / Real.pi ^ 2 ≤ 6.216 / 9.8696 :=
      div_le_div₀ (by norm_num) h3 (by norm_num) hpi
    have : (6.216:ℝ) / 9.8696 ≤ 2 / 3 := by norm_num
    linarith
  rw [le_div_iff₀ harg0]
  nlinarith



lemma updateSide_default_bounds (actual : ℝ) (ha0 : 0 ≤ actual) (ha1 : actual ≤ 1) :
    (updateSide createDefaultRating createDefaultRating actual 1).phi < 250 ∧
    (0.5 < actual → 1500 < (updateSide createDefaultRating createDefaultRating actual 1).mu) ∧
    (actual < 0.5 → (updateSide createDefaultRating createDefaultRating actual 1).mu < 1500) := by
  have hg2 : scaleDown createDefaultRating =
      { mu := 0, phi := 250 / 173.7178, sigma := 0.06 } := by
    unfold scaleDown createDefaultRating DEFAULT_MU DEFAULT_PHI DEFAULT_SIGMA SCALING_FACTOR
    norm_num
  have hE5 : expectScore { mu := 0, phi := 250 / 173.7178, sigma := 0.06 }
      { mu := 0, phi := 250 / 173.7178, sigma := 0.06 }
      (reduceImpact { mu := 0, phi := 250 / 173.7178, sigma := 0.06 }) = 0.5 :=
    expectScore_equal_mu _ _ _ rfl
  simp only [updateSide, hg2, scaleUp, DEFAULT_MU, SCALING_FACTOR, hE5]
  set I := reduceImpact { mu := 0, phi := 250 / 173.7178, sigma := 0.06 } with hIdef
  have hI0 : 0 < I := reduceImpact_pos _
  have hI1 : I ≤ 1 := reduceImpact_le_one _
  have hIsq : 0.6 ≤ I ^ 2 := default_impact_sq_ge
  clear_value I
  set Sg := determineSigma { mu := 0, phi := 250 / 173.7178, sigma := 0.06 }
      (1 * I * (actual - 0.5)) (min (1.0 / (I ^ 2 * 0.5 * (1.0 - 0.5))) 1e6) with hSgdef
  clear_value Sg
  have hSg0 : 0 < Sg := by
    rw [hSgdef]
    exact determineSigma_pos _ _ _ (by norm_num)
  have hSgle : Sg ≤ 0.06 := by
    rw [hSgdef]
    have hbr : (1 * I * (actual - 0.5)) ^ 2 ≤
        Glicko2Rating.phi { mu := 0, phi := 250 / 173.7178, sigma := 0.06 } ^ 2 +
          min (1.0 / (I ^ 2 * 0.5 * (1.0 - 0.5))) 1e6 := by
      have hphi2 : (2:ℝ) ≤ ((250:ℝ) / 173.7178) ^ 2 := by norm_num
      have hmin0 : (0:ℝ) ≤ min (1.0 / (I ^ 2 * 0.5 * (1.0 - 0.5))) 1e6 := by
        apply le_min
        · have hp : (0:ℝ) < I ^ 2 * 0.5 * (1.0 - 0.5) := by nlinarith
          positivity
        · norm_num
      have hd2 : (1 * I * (actual - 0.5)) ^ 2 ≤ 0.25 := by
        have hIsq1 : I ^ 2 ≤ 1 := by nlinarith
        have hasq : (actual - 0.5) ^ 2 ≤ 0.25 := by nlinarith
        have hrw : (1 * I * (actual - 0.5)) ^ 2 = I ^ 2 * (actual - 0.5) ^ 2 := by ring
        rw [hrw]
        have := mul_le_mul hIsq1 hasq (sq_nonneg _) (by norm_num : (0:ℝ) ≤ 1)
        linarith
      show (1 * I * (actual - 0.5)) ^ 2 ≤
        ((250:ℝ) / 173.7178) ^ 2 + min (1.0 / (I ^ 2 * 0.5 * (1.0 - 0.5))) 1e6
      linarith
    exact determineSigma_le _ _ _ (by norm_num) hbr
  have hsq : Real.sqrt (((250:ℝ) / 173.7178) ^ 2 + Sg ^ 2) ^ 2 =
      ((250:ℝ) / 173.7178) ^ 2 + Sg ^ 2 := Real.sq_sqrt (by positivity)
  rw [hsq]
  set vi := 1 * I ^ 2 * 0.5 * (1.0 - 0.5) with hvidef
  clear_value vi
  have hvi : 0.15 ≤ vi := by rw [hvidef]; nlinarith
  set A := ((250:ℝ) / 173.7178) ^ 2 with hAdef
  clear_value A
  have hA2 : 2 ≤ A := by rw [hAdef]; norm_num
  have hA0 : 0 < A := by linarith
  have hAS : 0 < A + Sg ^ 2 := by positivity
  set X := 1.0 / (A + Sg ^ 2) + vi with hXdef
  clear_value X
  have hX0 : 0 < X := by
    rw [hXdef]
    have h1 : (0:ℝ) < 1.0 / (A + Sg ^ 2) := by positivity
    linarith
  have hsX : 0 < Real.sqrt X := Real.sqrt_pos.mpr hX0
  have hSg2 : Sg ^ 2 ≤ 0.0036 := by nlinarith
  have hkeyX : (1.0 * 173.7178 / 250 : ℝ) ^ 2 < X := by
    have hkey : 1 / A - 1.0 / (A + Sg ^ 2) = Sg ^ 2 / (A * (A + Sg ^ 2)) := by
      field_simp
      ring
    have hden : 4 ≤ A * (A + Sg ^ 2) := by nlinarith [sq_nonneg Sg]
    have hfrac : Sg ^ 2 / (A * (A + Sg ^ 2)) ≤ 0.0009 := by
      have h1 : Sg ^ 2 / (A * (A + Sg ^ 2)) ≤ 0.0036 / 4 :=
        div_le_div₀ (by norm_num) hSg2 (by norm_num) hden
      linarith
    have hre : (1.0 * 173.7178 / 250 : ℝ) ^ 2 = 1 / A := by
      rw [eq_div_iff hA0.ne', hAdef]
      norm_num
    rw [hre, hXdef]
    linarith
  have hsqX_gt : (1.0 * 173.7178 / 250 : ℝ) < Real.sqrt X :=
    (Real.lt_sqrt (by norm_num)).mpr hkeyX
  set P := 1.0 / Real.sqrt X with hPdef
  clear_value P
  have hP0 : 0 < P := by
    rw [hPdef]
    positivity
  have hPS : P * 173.7178 < 250 := by
    rw [hPdef, div_mul_eq_mul_div, div_lt_iff₀ hsX]
    have h2 := (div_lt_iff₀ (by norm_num : (0:ℝ) < 250)).mp hsqX_gt
    linarith
  clear hSgdef hXdef hPdef hvidef hAdef hIdef hE5 hg2 hsq hsqX_gt hkeyX hSg2 hX0 hsX
  clear hvi hA2 hA0 hAS hSgle hSg0 hIsq
  refine ⟨hPS, ?_, ?_⟩
  · intro hgt
    have h1 : 0 < 1 * I * (actual - 0.5) :=
      mul_pos (by linarith : (0:ℝ) < 1 * I) (by linarith : (0:ℝ) < actual - 0.5)
    have hmu0 : 0 < P ^ 2 * (1 * I * (actual - 0.5)) := mul_pos (pow_pos hP0 2) h1
    have hx : (1500:ℝ) < (0 + P ^ 2 * (1 * I * (actual - 0.5))) * 173.7178 + 1500.0 := by
      linarith
    calc (1500:ℝ) < min ((0 + P ^ 2 * (1 * I * (actual - 0.5))) * 173.7178 + 1500.0) 5000 :=
          lt_min hx (by norm_num)
      _ ≤ max 0 (min ((0 + P ^ 2 * (1 * I * (actual - 0.5))) * 173.7178 + 1500.0) 5000) :=
          le_max_right _ _
  · intro hlt
    have h1 : 1 * I * (actual - 0.5) < 0 :=
      mul_neg_of_pos_of_neg (by linarith : (0:ℝ) < 1 * I) (by linarith : actual - 0.5 < 0)
    have hmu0 : P ^ 2 * (1 * I * (actual - 0.5)) < 0 :=
      mul_neg_of_pos_of_neg (pow_pos hP0 2) h1
    have hx : (0 + P ^ 2 * (1 * I * (actual - 0.5))) * 173.7178 + 1500.0 < 1500 := by
      linarith
    apply max_lt (by norm_num)
    exact lt_of_le_of_lt (min_le_left _ _) hx



/-- C7: with both competitors at the default rating `{1500, 250, 0.06}` and a
completed contest scored 6-0, competitor A's new rating exceeds 1500,
competitor B's falls below 1500, and both deviations drop below 250. -/
theorem default_six_love_moves_ratings :
    1500 < (calculateGlickoTRUpdate createDefaultRating createDefaultRating 6 0 "completed").1.mu ∧
    (calculateGlickoTRUpdate createDefaultRating createDefaultRating 6 0 "completed").2.mu < 1500 ∧
    (calculateGlickoTRUpdate createDefaultRating createDefaultRating 6 0 "completed").1.phi < 250 ∧
    (calculateGlickoTRUpdate createDefaultRating createDefaultRating 6 0 "completed").2.phi < 250 := by
  have hw : calculateMatchWeight "completed" 6 0 = 1 := by
    unfold calculateMatchWeight
    rw [if_neg (by decide), if_pos rfl]
    norm_num
  have hupd : calculateGlickoTRUpdate createDefaultRating createDefaultRating 6 0 "completed" =
      (updateSide createDefaultRating createDefaultRating 1 1,
       updateSide createDefaultRating createDefaultRating 0 1) := by
    simp only [calculateGlickoTRUpdate, hw]
    norm_num
  rw [hupd]
  have hA := updateSide_default_bounds 1 (by norm_num) (by norm_num)
  have hB := updateSide_default_bounds 0 (by norm_num) (by norm_num)
  exact ⟨hA.2.1 (by norm_num), hB.2.2 (by norm_num), hA.1, hB.1⟩

end GlickoTR

end
